import Mathlib

/-!
Verification development for the HDL-DEV automation scripts.

The repository drives a vendor HDL simulator through a line-oriented
JSON-over-TCP protocol and parses its free-form textual transcript.  The
definitions below are a shallow embedding of the Python sources in
`scripts/modelsim_controller.py`, `scripts/modelsim_runner.py` and
`scripts/simulate_gui.py`, plus spec-modelled definitions for the socket
client (`modelsim_client.py`), whose source is not part of the repository
snapshot under verification.

Python strings are modelled as `List Char` (`PyStr`); a transcript on disk
is modelled as `Option PyStr` (`none` = file missing or unreadable).
Python `str.splitlines` is modelled for the newline character only (the
transcripts at issue are written with plain newlines), `str.lower` via
`Char.toLower` (ASCII, which covers every marker the code matches on), and
`str.strip` via trimming `Char.isWhitespace` characters on both ends.
-/

namespace HDLDev

/-- Python strings, modelled as lists of characters. -/
abbrev PyStr := List Char

/-- Boolean test that `pat` is a prefix of `s` (character-wise equality). -/
def startsWith : PyStr → PyStr → Bool
  | [], _ => true
  | _ :: _, [] => false
  | a :: as, b :: bs => a = b && startsWith as bs

/-- Python's substring containment test `pat in s`. -/
def containsSub (pat : PyStr) : PyStr → Bool
  | [] => startsWith pat []
  | s@(_ :: rest) => startsWith pat s || containsSub pat rest

/-- Python `str.strip()`: drop leading and trailing whitespace. -/
def pyStrip (s : PyStr) : PyStr :=
  ((s.dropWhile Char.isWhitespace).reverse.dropWhile Char.isWhitespace).reverse

/-- Python `str.lower()` (ASCII case folding). -/
def pyLower (s : PyStr) : PyStr := s.map Char.toLower

/-- Python `str.splitlines()` for newline-separated text: split on each
newline character, with no entry for a trailing newline. -/
def pySplitlines : PyStr → List PyStr
  | [] => []
  | c :: rest =>
    if c = '\n' then [] :: pySplitlines rest
    else
      match pySplitlines rest with
      | [] => [[c]]
      | l :: ls => (c :: l) :: ls

/-- Python list slice `l[i:]` with Python's negative-index convention. -/
def pySliceFrom (l : List PyStr) (i : Int) : List PyStr :=
  if i < 0 then l.drop (l.length - min l.length (-i).toNat)
  else l.drop i.toNat

/-- Join lines with newline characters, as Python's `'\n'.join(lines)`. -/
def pyJoinNl (lines : List PyStr) : PyStr :=
  (lines.intersperse ['\n']).flatten

/-! ### ModelSimController.check_for_errors (modelsim_controller.py lines 777-811) -/

/-- Result dictionary of `ModelSimController.check_for_errors`. -/
structure ErrorCheck where
  has_errors : Bool
  has_warnings : Bool
  error_count : Nat
  warning_count : Nat
  errors : List PyStr
  warnings : List PyStr
  deriving Repr, DecidableEq

/-- Error test of the loop body: the lowered line contains a vendor error
marker (`'** error' in line_lower or 'error:' in line_lower`). -/
def isErrorLine (line : PyStr) : Bool :=
  containsSub ("** error".data) (pyLower line) || containsSub ("error:".data) (pyLower line)

/-- Warning test of the loop body (`'** warning' in line_lower or
'warning:' in line_lower`). -/
def isWarningLine (line : PyStr) : Bool :=
  containsSub ("** warning".data) (pyLower line) || containsSub ("warning:".data) (pyLower line)

/-- Loop body of `check_for_errors`: classify one line, appending its
stripped form to the error list, else (on a warning match) to the warning
list. -/
def classifyLine (acc : List PyStr × List PyStr) (line : PyStr) : List PyStr × List PyStr :=
  if isErrorLine line then (acc.1 ++ [pyStrip line], acc.2)
  else if isWarningLine line then (acc.1, acc.2 ++ [pyStrip line])
  else acc

/-- Embedding of `ModelSimController.check_for_errors` on transcript text:
scan the transcript line by line, collecting stripped error and warning
lines, then report flags and counts. -/
def check_for_errors (transcript : PyStr) : ErrorCheck :=
  let ew := (pySplitlines transcript).foldl classifyLine ([], [])
  { has_errors := decide (0 < ew.1.length)
    has_warnings := decide (0 < ew.2.length)
    error_count := ew.1.length
    warning_count := ew.2.length
    errors := ew.1
    warnings := ew.2 }

theorem classifyLine_foldl (ls : List PyStr) (e w : List PyStr) :
    ls.foldl classifyLine (e, w) =
      (e ++ (ls.filter isErrorLine).map pyStrip,
       w ++ (ls.filter (fun l => !isErrorLine l && isWarningLine l)).map pyStrip) := by
  induction ls generalizing e w with
  | nil => simp
  | cons l ls ih =>
    by_cases he : isErrorLine l
    · simp [classifyLine, he, ih, List.filter_cons]
    · by_cases hw : isWarningLine l
      · simp [classifyLine, he, hw, ih, List.filter_cons]
      · simp [classifyLine, he, hw, ih, List.filter_cons]

/-! ### ModelSimRunner.parse_log (modelsim_runner.py lines 161-207)

The Python body reads the log file (falling back to `sim/transcript`) and
then scans the text with `re.findall`.  The patterns `\*\* Error:.*|ERROR:.*`
and `\*\* Warning:.*` never cross a newline (`.` does not match newline), and
the greedy `.*` consumes to the end of the line, so `findall` emits, for each
line, the suffix starting at the leftmost occurrence of a marker — at most
one match per line.  `^# (.+)$` with `re.MULTILINE` emits, for each line
starting with `"# "`, the non-empty remainder of that line. -/

/-- Leftmost match of `\*\* Error:.*|ERROR:.*` within one line: the suffix
of the line starting at the first position where either alternative
matches, if any. -/
def findErrMatch : PyStr → Option PyStr
  | [] => none
  | s@(_ :: rest) =>
    if startsWith ("** Error:".data) s then some s
    else if startsWith ("ERROR:".data) s then some s
    else findErrMatch rest

/-- Leftmost match of `\*\* Warning:.*` within one line. -/
def findWarnMatch : PyStr → Option PyStr
  | [] => none
  | s@(_ :: rest) =>
    if startsWith ("** Warning:".data) s then some s
    else findWarnMatch rest

/-- Capture group of `^# (.+)$` on one line: the non-empty text after a
leading `"# "`. -/
def findDisplayMatch : PyStr → Option PyStr
  | '#' :: ' ' :: rest => if rest.isEmpty then none else some rest
  | _ => none

/-- Result dictionary of `ModelSimRunner.parse_log`. -/
structure LogAnalysis where
  success : Bool
  errors : List PyStr
  warnings : List PyStr
  display_outputs : List PyStr
  raw_log : Option PyStr
  deriving Repr, DecidableEq

/-- Embedding of the parsing body of `ModelSimRunner.parse_log`, applied to
the text of the log file: regex scans for errors, warnings and `$display`
output, and the success verdict (no errors, and either a finish marker or a
PASS marker present). -/
def parse_log_content (content : PyStr) : LogAnalysis :=
  let errors := (pySplitlines content).filterMap findErrMatch
  let warnings := (pySplitlines content).filterMap findWarnMatch
  let display_outputs := (pySplitlines content).filterMap findDisplayMatch
  let has_finish := containsSub ("$finish".data) content || containsSub ("End time:".data) content
  let has_pass := containsSub ("PASS".data) content
  { success := errors.isEmpty && (has_finish || has_pass)
    errors := errors
    warnings := warnings
    display_outputs := display_outputs
    raw_log := some content }

/-- Embedding of `ModelSimRunner.parse_log` including its file-resolution
step: if the named log file is absent, fall back to `sim/transcript`; if
that is also absent, report failure with a fixed error message and no
`raw_log` entry. -/
def parse_log (log_file : Option PyStr) (transcript_file : Option PyStr) : LogAnalysis :=
  match log_file with
  | some content => parse_log_content content
  | none =>
    match transcript_file with
    | some content => parse_log_content content
    | none =>
      { success := false
        errors := ["Log file and transcript not found".data]
        warnings := []
        display_outputs := []
        raw_log := none }

/-! ### ModelSimController transcript operations (modelsim_controller.py)

The controller reads the transcript file at `project_root / "sim" /
"transcript"` and never writes it.  The file system visible to these
operations is just that one file's content, `Option PyStr` (`none` when the
file is missing or unreadable); each operation is embedded as a function
from the file state to its result paired with the file state it leaves
behind, so that the read-only claim is expressible. -/

/-- Embedding of `ModelSimController.read_transcript` (lines 749-775): a
missing or unreadable transcript yields the empty string; a falsy `lines`
argument (`None` or `0`) yields the whole content; a truthy `lines = n`
yields the last `n` lines joined by newlines (Python slice `[-n:]`). The
second component is the file state after the call. -/
def read_transcript (fs : Option PyStr) (lines : Option Int) : PyStr × Option PyStr :=
  match fs with
  | none => ([], fs)
  | some content =>
    match lines with
    | none => (content, fs)
    | some n =>
      if n = 0 then (content, fs)
      else (pyJoinNl (pySliceFrom (pySplitlines content) (-n)), fs)

/-- Dictionary built by `ModelSimController.find_test_results`. -/
structure TestResults where
  found : Bool
  passed : Bool
  message : PyStr
  all_results : List PyStr
  deriving Repr, DecidableEq

/-- Loop body of `find_test_results` (lines 833-843): a line containing
`TEST_RESULT:` is recorded; a `PASS` (resp. `FAIL`) occurrence in the line
sets the verdict and message. -/
def testResultLine (acc : TestResults) (line : PyStr) : TestResults :=
  if containsSub ("TEST_RESULT:".data) line then
    let acc1 := { acc with found := true, all_results := acc.all_results ++ [pyStrip line] }
    if containsSub ("PASS".data) line then
      { acc1 with passed := true, message := pyStrip line }
    else if containsSub ("FAIL".data) line then
      { acc1 with passed := false, message := pyStrip line }
    else acc1
  else acc

/-- Embedding of `ModelSimController.find_test_results` (lines 813-845) on
transcript text. -/
def find_test_results (transcript : PyStr) : TestResults :=
  (pySplitlines transcript).foldl testResultLine
    { found := false, passed := false, message := [], all_results := [] }

/-- Decimal digit scan for the `(\d+)` capture group. -/
def takeDigits (s : PyStr) : PyStr × PyStr :=
  (s.takeWhile Char.isDigit, s.dropWhile Char.isDigit)

/-- Numeric value of a digit string. -/
def digitsToNat (ds : PyStr) : Nat :=
  ds.foldl (fun n c => n * 10 + (c.toNat - '0'.toNat)) 0

/-- Match of `\[(\d+)\s+ns\].*SIGNAL` (case-insensitive) anchored at the
head of a suffix: an opening bracket, one or more digits, whitespace, the
letters `ns`, a closing bracket, and the signal keyword somewhere in the
remainder of the line.  Returns the captured digit group. -/
def pulseHeadMatch (signal : PyStr) (s : PyStr) : Option PyStr :=
  match s with
  | '[' :: rest =>
    let (ds, rest1) := takeDigits rest
    if ds.isEmpty then none
    else
      let ws := rest1.takeWhile Char.isWhitespace
      let rest2 := rest1.dropWhile Char.isWhitespace
      if ws.isEmpty then none
      else
        match rest2 with
        | n :: sChar :: ']' :: rest3 =>
          if n.toLower = 'n' && sChar.toLower = 's' &&
             containsSub (pyLower signal) (pyLower rest3) then some ds
          else none
        | _ => none
  | _ => none

/-- Leftmost `re.search` of the pulse pattern within one line. -/
def findPulseMatch (signal : PyStr) : PyStr → Option PyStr
  | [] => none
  | s@(_ :: rest) =>
    match pulseHeadMatch signal s with
    | some ds => some ds
    | none => findPulseMatch signal rest

/-- Embedding of `ModelSimController.find_pulse_times` (lines 440-476) on
transcript text: the captured time value of each line matching the pulse
pattern, in nanoseconds. -/
def find_pulse_times (signal : PyStr) (transcript : PyStr) : List Nat :=
  ((pySplitlines transcript).filterMap (findPulseMatch signal)).map digitsToNat

/-! ### File-state-threaded transcript consumers

Each transcript-consuming controller method takes an optional transcript
argument and reads the file when the argument is `None`; the embedding
threads the file state through that read. -/

/-- File-state-threaded `check_for_errors` (transcript read when the
argument is `None`). -/
def check_for_errors_fs (fs : Option PyStr) (t : Option PyStr) : ErrorCheck × Option PyStr :=
  let ct := match t with
    | none => read_transcript fs none
    | some c => (c, fs)
  (check_for_errors ct.1, ct.2)

/-- File-state-threaded `find_test_results`. -/
def find_test_results_fs (fs : Option PyStr) (t : Option PyStr) : TestResults × Option PyStr :=
  let ct := match t with
    | none => read_transcript fs none
    | some c => (c, fs)
  (find_test_results ct.1, ct.2)

/-- File-state-threaded `find_pulse_times`. -/
def find_pulse_times_fs (fs : Option PyStr) (signal : PyStr) (t : Option PyStr) :
    List Nat × Option PyStr :=
  let ct := match t with
    | none => read_transcript fs none
    | some c => (c, fs)
  (find_pulse_times signal ct.1, ct.2)

/-- Analysis dictionary of `ModelSimController.analyze_simulation`. -/
structure Analysis where
  transcript_length : Nat
  errors : ErrorCheck
  test_results : TestResults
  success : Bool
  deriving Repr, DecidableEq

/-- Embedding of `ModelSimController.analyze_simulation` (lines 847-902):
read the transcript (last 100 lines when `recent_only`), run the error
check and the test-result scan, and combine the verdicts. -/
def analyze_simulation_fs (fs : Option PyStr) (recent_only : Bool) : Analysis × Option PyStr :=
  let t := if recent_only then read_transcript fs (some 100) else read_transcript fs none
  let error_check := check_for_errors t.1
  let test_results := find_test_results t.1
  ({ transcript_length := t.1.length
     errors := error_check
     test_results := test_results
     success := !error_check.has_errors && (!test_results.found || test_results.passed) },
   t.2)

/-! ### Response envelopes and ModelSimController.quick_recompile_and_run
(modelsim_controller.py lines 175-325)

A response envelope is a mapping with a success flag, a human-readable
message, free-form output and lists of error and warning strings.  The
client methods (`recompile`, `restart_simulation`, `run_simulation`,
`execute_tcl` for the zoom command, `refresh_waveform`) each produce one
response per call; the embedding supplies those responses as an oracle
record and additionally returns the list of client operations actually
invoked, in order. -/

/-- Response envelope returned by the socket client. -/
structure Response where
  success : Bool
  message : String
  output : String
  errors : List String
  warnings : List String
  deriving Repr, DecidableEq

/-- One response per client operation that `quick_recompile_and_run` can
invoke. -/
structure ClientResponses where
  recompile : Response
  restart : Response
  run : Response
  zoom : Response
  refresh_wave : Response
  deriving Repr, DecidableEq

/-- Client operations, in the order the workflow can invoke them. -/
inductive ClientOp where
  | recompileOp
  | restartOp
  | runOp
  | zoomOp
  | refreshWaveOp
  deriving Repr, DecidableEq

/-- Result dictionary of `quick_recompile_and_run`; a step entry is `none`
while the step's result dictionary is still the initial empty `{}`. -/
structure QuickResults where
  success : Bool
  message : String
  recompile : Option Response
  restart : Option Response
  run : Option Response
  wave_refresh : Option Response
  deriving Repr, DecidableEq

/-- Embedding of `ModelSimController.quick_recompile_and_run`:
recompile, then (optionally) restart, then run, then (optionally) refresh
the waveform, stopping with a step-specific message at the first failing
step.  `connected` models `self.is_connected()`, `has_files` models the
check that design files and a testbench are available, and the second
component is the trace of client operations invoked. -/
def quick_recompile_and_run (connected has_files : Bool)
    (restart_flag refresh_wave_flag : Bool) (zoom_range : Option (String × String))
    (client : ClientResponses) : QuickResults × List ClientOp :=
  if !connected then
    ({ success := false, message := "Not connected to ModelSim server",
       recompile := none, restart := none, run := none, wave_refresh := none }, [])
  else if !has_files then
    ({ success := false, message := "No design files specified",
       recompile := none, restart := none, run := none, wave_refresh := none }, [])
  else
    let rec_r := client.recompile
    if !rec_r.success then
      ({ success := false, message := "Compilation failed",
         recompile := some rec_r, restart := none, run := none, wave_refresh := none },
       [.recompileOp])
    else if restart_flag && !client.restart.success then
      ({ success := false, message := "Restart failed",
         recompile := some rec_r, restart := some client.restart, run := none,
         wave_refresh := none },
       [.recompileOp, .restartOp])
    else
      let restart_entry := if restart_flag then some client.restart else none
      let ops0 : List ClientOp :=
        if restart_flag then [.recompileOp, .restartOp] else [.recompileOp]
      if !client.run.success then
        ({ success := false, message := "Simulation run failed",
           recompile := some rec_r, restart := restart_entry, run := some client.run,
           wave_refresh := none },
         ops0 ++ [.runOp])
      else if refresh_wave_flag then
        match zoom_range with
        | some _ =>
          -- a failed zoom falls back to a plain refresh; either way the
          -- recorded wave result is the refresh_waveform response
          ({ success := true, message := "All steps completed successfully",
             recompile := some rec_r, restart := restart_entry, run := some client.run,
             wave_refresh := some client.refresh_wave },
           ops0 ++ [.runOp, .zoomOp, .refreshWaveOp])
        | none =>
          ({ success := true, message := "All steps completed successfully",
             recompile := some rec_r, restart := restart_entry, run := some client.run,
             wave_refresh := some client.refresh_wave },
           ops0 ++ [.runOp, .refreshWaveOp])
      else
        ({ success := true, message := "All steps completed successfully",
           recompile := some rec_r, restart := restart_entry, run := some client.run,
           wave_refresh := none },
         ops0 ++ [.runOp])

/-! ### Path normalization (modelsim_controller.py lines 354-384 and
simulate_gui.py lines 56-86)

Paths are modelled as pathlib objects: an absolute flag (the anchor, e.g.
a drive, is the head component when absolute) and the component list.
`str()` joins components with the Windows backslash separator; the code
then replaces every backslash with a forward slash. -/

/-- Pathlib path: absolute flag plus components (anchor first when
absolute). -/
structure PyPath where
  absolute : Bool
  parts : List String
  deriving Repr, DecidableEq

/-- Python `str(path)` on Windows: components joined by backslashes, `"."`
for an empty relative path. -/
def pathStr (p : PyPath) : String :=
  if p.parts.isEmpty then "." else String.intercalate "\x5c" p.parts

/-- The code's `str.replace` of each backslash by a forward slash. -/
def replaceBS (s : String) : String :=
  String.map (fun c => if c = '\x5c' then '/' else c) s

/-- Pathlib `relative_to`: succeeds when the root's components (anchor
included) are a prefix, yielding the relative remainder; `None` models the
`ValueError` branch. -/
def relative_to (p root : PyPath) : Option PyPath :=
  if p.absolute = root.absolute && root.parts.isPrefixOf p.parts then
    some ⟨false, p.parts.drop root.parts.length⟩
  else none

/-- Path normalization of `ModelSimController.recompile` (lines 357-366,
design-file loop; lines 368-377 apply the same computation to the
testbench): project-relative with a `../` prefix when the absolute path is
under the project root, plain forward-slash form when outside it, `../`
plus the forward-slash form when already relative. -/
def normalize_controller (project_root f : PyPath) : String :=
  if f.absolute then
    match relative_to f project_root with
    | some rel => "../" ++ replaceBS (pathStr rel)
    | none => replaceBS (pathStr f)
  else
    "../" ++ replaceBS (pathStr f)

/-- Testbench normalization in `ModelSimController.recompile`: a falsy
testbench yields the empty string. -/
def normalize_tb_controller (project_root : PyPath) (tb : Option PyPath) : String :=
  match tb with
  | none => ""
  | some t => normalize_controller project_root t

/-- Path normalization duplicated in `ModelSimGUIRunner.create_gui_tcl_script`
(simulate_gui.py lines 59-71, design-file loop; lines 75-83 for the
testbench). -/
def normalize_gui (project_root f : PyPath) : String :=
  if f.absolute then
    match relative_to f project_root with
    | some rel => "../" ++ replaceBS (pathStr rel)
    | none => replaceBS (pathStr f)
  else
    "../" ++ replaceBS (pathStr f)

/-- Testbench normalization in `create_gui_tcl_script`. -/
def normalize_tb_gui (project_root t : PyPath) : String :=
  normalize_gui project_root t

/-! ### Socket client connection retry

The socket client (`modelsim_client.py`) is not part of the repository
snapshot; its connect loop is modelled from the spec. -/

/-- Observable connection events: a numbered connection attempt, or a
sleep of the configured retry delay. -/
inductive ConnEvent (δ : Type) where
  | attempt : Nat → ConnEvent δ
  | waitDelay : δ → ConnEvent δ
  deriving Repr, DecidableEq

/-- Modelled from the spec: `ModelSimClient.connect` (absent
`modelsim_client.py`) "retries connection exactly the configured number of
times with the configured delay before reporting failure".  `oracle k`
tells whether the k-th attempt succeeds; the loop makes numbered attempts,
sleeping the fixed delay between consecutive attempts, and stops early on
the first success. -/
def client_connect_aux {δ : Type} (oracle : Nat → Bool) (d : δ) :
    Nat → Nat → List (ConnEvent δ) × Bool
  | _, 0 => ([], false)
  | k, n + 1 =>
    if oracle k then ([.attempt k], true)
    else if n = 0 then ([.attempt k], false)
    else
      let r := client_connect_aux oracle d (k + 1) n
      (.attempt k :: .waitDelay d :: r.1, r.2)

/-- Modelled from the spec: the client connect entry point, attempting at
most `max_retries` times starting from attempt 1. -/
def client_connect {δ : Type} (oracle : Nat → Bool) (d : δ) (max_retries : Nat) :
    List (ConnEvent δ) × Bool :=
  client_connect_aux oracle d 1 max_retries

/-- Embedding of `ModelSimController.connect` (modelsim_controller.py lines
134-150): an already-connected client short-circuits to `True`; otherwise a
fresh client is created and its connect loop runs. -/
def controller_connect {δ : Type} (already_connected : Bool) (oracle : Nat → Bool)
    (d : δ) (max_retries : Nat) : List (ConnEvent δ) × Bool :=
  if already_connected then ([], true)
  else client_connect oracle d max_retries

/-- Number of connection attempts in a trace. -/
def countAttempts {δ : Type} : List (ConnEvent δ) → Nat
  | [] => 0
  | .attempt _ :: t => countAttempts t + 1
  | .waitDelay _ :: t => countAttempts t

/-- The sleep events of a trace, in order. -/
def waitEvents {δ : Type} : List (ConnEvent δ) → List (ConnEvent δ)
  | [] => []
  | .attempt _ :: t => waitEvents t
  | .waitDelay d :: t => .waitDelay d :: waitEvents t

/-! ### Command envelope JSON codec

Modelled from the spec: the command envelope ("a mapping with a
command-name field and a parameters mapping, serialized as a single line
of JSON text, terminated by a newline") travels over the socket; the
serialization code lives in the absent `modelsim_client.py` and the TCL
server script.  Parameter values are JSON strings or arrays of strings
(the shapes the controller sends: command strings, simulation times, file
lists).  The encoder escapes quotes, backslashes and control characters —
in particular the newline — so the envelope is one line; the decoder is a
recursive-descent parser for that wire grammar. -/

/-- Parameter value of a command envelope: a JSON string or an array of
strings. -/
inductive JVal where
  | str : String → JVal
  | arr : List String → JVal
  deriving Repr, DecidableEq

/-- Command envelope: command name plus parameters mapping. -/
structure Envelope where
  command : String
  params : List (String × JVal)
  deriving Repr, DecidableEq

/-- Lower-case hex digit for a value below 16. -/
def hexDigitCh (n : Nat) : Char :=
  if n < 10 then Char.ofNat ('0'.toNat + n) else Char.ofNat ('a'.toNat + (n - 10))

/-- JSON escape of one character: quote and backslash get a backslash
escape, control characters a `\u00XX` escape, everything else passes
through. -/
def escChar (c : Char) : List Char :=
  if c = '"' then ['\x5c', '"']
  else if c = '\x5c' then ['\x5c', '\x5c']
  else if c.toNat < 32 then
    ['\x5c', 'u', '0', '0', hexDigitCh (c.toNat / 16), hexDigitCh (c.toNat % 16)]
  else [c]

/-- JSON string token for a character list. -/
def encStrCh (s : List Char) : List Char :=
  '"' :: (s.flatMap escChar ++ ['"'])

/-- Comma-separated concatenation. -/
def sepComma : List (List Char) → List Char
  | [] => []
  | [x] => x
  | x :: y :: ys => x ++ (',' :: sepComma (y :: ys))

/-- JSON encoding of a parameter value. -/
def encVal : JVal → List Char
  | .str s => encStrCh s.data
  | .arr l => '[' :: (sepComma (l.map fun s => encStrCh s.data) ++ [']'])

/-- JSON encoding of one key/value member. -/
def encMember (kv : String × JVal) : List Char :=
  encStrCh kv.1.data ++ (':' :: encVal kv.2)

/-- JSON encoding of the parameters object. -/
def encParams (ps : List (String × JVal)) : List Char :=
  '\x7b' :: (sepComma (ps.map encMember) ++ ['\x7d'])

/-- JSON encoding of a command envelope as one line of text (without the
terminating newline of the wire format). -/
def encodeEnvelope (e : Envelope) : List Char :=
  '\x7b' :: (encStrCh "command".data ++ (':' :: (encStrCh e.command.data ++
    (',' :: (encStrCh "params".data ++ (':' :: (encParams e.params ++ ['\x7d'])))))))

/-- Value of a hex digit character. -/
def hexVal (c : Char) : Option Nat :=
  if '0' ≤ c ∧ c ≤ '9' then some (c.toNat - '0'.toNat)
  else if 'a' ≤ c ∧ c ≤ 'f' then some (c.toNat - 'a'.toNat + 10)
  else if 'A' ≤ c ∧ c ≤ 'F' then some (c.toNat - 'A'.toNat + 10)
  else none

/-- Decode the body of a JSON string token up to its closing quote,
returning the decoded characters and the unconsumed tail. -/
def decStrAux : List Char → Option (List Char × List Char)
  | [] => none
  | c :: rest =>
    if c = '"' then some ([], rest)
    else if c = '\x5c' then
      match rest with
      | [] => none
      | e :: rest2 =>
        if e = '"' then (decStrAux rest2).map fun p => ('"' :: p.1, p.2)
        else if e = '\x5c' then (decStrAux rest2).map fun p => ('\x5c' :: p.1, p.2)
        else if e = 'u' then
          match rest2 with
          | h1 :: h2 :: h3 :: h4 :: rest3 =>
            match hexVal h1, hexVal h2, hexVal h3, hexVal h4 with
            | some a, some b, some c2, some d =>
              (decStrAux rest3).map fun p =>
                (Char.ofNat (((a * 16 + b) * 16 + c2) * 16 + d) :: p.1, p.2)
            | _, _, _, _ => none
          | _ => none
        else none
    else (decStrAux rest).map fun p => (c :: p.1, p.2)

/-- Decode a JSON string token, opening quote included. -/
def decString : List Char → Option (List Char × List Char)
  | '"' :: rest => decStrAux rest
  | _ => none

/-- Decode the items of a non-empty string array after the opening
bracket, up to and including the closing bracket.  The fuel bounds the
number of items. -/
def decArrItems : Nat → List Char → Option (List String × List Char)
  | 0, _ => none
  | fuel + 1, s =>
    match decString s with
    | none => none
    | some (x, rest) =>
      match rest with
      | ',' :: rest2 =>
        (decArrItems fuel rest2).map fun p => (String.mk x :: p.1, p.2)
      | ']' :: rest2 => some ([String.mk x], rest2)
      | _ => none

/-- Decode a parameter value (string or array of strings). -/
def decVal (fuel : Nat) (s : List Char) : Option (JVal × List Char) :=
  match s with
  | '"' :: _ => (decString s).map fun p => (JVal.str (String.mk p.1), p.2)
  | '[' :: ']' :: rest => some (.arr [], rest)
  | '[' :: rest => (decArrItems fuel rest).map fun p => (.arr p.1, p.2)
  | _ => none

/-- Decode the members of a non-empty object after the opening brace, up
to and including the closing brace. -/
def decMembers : Nat → List Char → Option (List (String × JVal) × List Char)
  | 0, _ => none
  | fuel + 1, s =>
    match decString s with
    | none => none
    | some (k, rest) =>
      match rest with
      | ':' :: rest2 =>
        match decVal fuel rest2 with
        | none => none
        | some (v, rest3) =>
          match rest3 with
          | ',' :: rest4 =>
            (decMembers fuel rest4).map fun p => ((String.mk k, v) :: p.1, p.2)
          | '\x7d' :: rest4 => some ([(String.mk k, v)], rest4)
          | _ => none
      | _ => none

/-- Decode a parameters object. -/
def decParams (fuel : Nat) : List Char → Option (List (String × JVal) × List Char)
  | '\x7b' :: '\x7d' :: rest => some ([], rest)
  | '\x7b' :: rest => decMembers fuel rest
  | _ => none

/-- Consume one expected character. -/
def expectChar (c : Char) : List Char → Option (List Char)
  | x :: rest => if x = c then some rest else none
  | [] => none

/-- Decode a command envelope from one line of JSON text. -/
def decodeEnvelope (line : List Char) : Option Envelope := do
  let r0 ← expectChar '\x7b' line
  let p1 ← decString r0
  if p1.1 = "command".data then
    let r2 ← expectChar ':' p1.2
    let pc ← decString r2
    let r4 ← expectChar ',' pc.2
    let p2 ← decString r4
    if p2.1 = "params".data then
      let r6 ← expectChar ':' p2.2
      let pp ← decParams r6.length r6
      let r8 ← expectChar '\x7d' pp.2
      if r8 = [] then some ⟨String.mk pc.1, pp.1⟩ else none
    else none
  else none

/-! ## Helper lemmas -/

theorem startsWith_append (p s : PyStr) : startsWith p (p ++ s) = true := by
  induction p with
  | nil => simp [startsWith]
  | cons c cs ih => simp [startsWith, ih]

theorem containsSub_of_startsWith {p s : PyStr} (h : startsWith p s = true) :
    containsSub p s = true := by
  cases s with
  | nil => simpa [containsSub] using h
  | cons c rest => simp [containsSub, h]

theorem containsSub_cons_eq_false {p : PyStr} {c : Char} {s : PyStr}
    (h : containsSub p (c :: s) = false) :
    startsWith p (c :: s) = false ∧ containsSub p s = false := by
  simpa [containsSub, Bool.or_eq_false_iff] using h

theorem pySplitlines_no_newline {s : PyStr} (hs : s ≠ []) (h : '\n' ∉ s) :
    pySplitlines s = [s] := by
  induction s with
  | nil => exact absurd rfl hs
  | cons c cs ih =>
    have hc : c ≠ '\n' := fun e => h (e ▸ List.mem_cons_self _ _)
    have h2 : '\n' ∉ cs := fun m => h (List.mem_cons_of_mem _ m)
    by_cases hcs : cs = []
    · subst hcs
      simp [pySplitlines, hc]
    · rw [pySplitlines, if_neg hc, ih hcs h2]

/-! ## Claim theorems: transcript classification and reading -/

/-- Claim C6: `ModelSimController.check_for_errors` classifies the
transcript line by line — the errors list is exactly the stripped lines
containing an error marker (case-insensitively), in transcript order; the
warnings list is exactly the stripped warning-marker lines not already
classified as errors, in order; `has_errors` holds iff the errors list is
non-empty, and the two counts are the lengths of the two lists. -/
theorem check_for_errors_classifies (t : PyStr) :
    (check_for_errors t).errors = ((pySplitlines t).filter isErrorLine).map pyStrip ∧
    (check_for_errors t).warnings =
      ((pySplitlines t).filter (fun l => !isErrorLine l && isWarningLine l)).map pyStrip ∧
    ((check_for_errors t).has_errors = true ↔ (check_for_errors t).errors ≠ []) ∧
    (check_for_errors t).error_count = (check_for_errors t).errors.length ∧
    (check_for_errors t).warning_count = (check_for_errors t).warnings.length := by
  unfold check_for_errors
  rw [classifyLine_foldl]
  refine ⟨rfl, rfl, ?_, rfl, rfl⟩
  simp [List.length_pos]

theorem read_transcript_snd (fs : Option PyStr) (lines : Option Int) :
    (read_transcript fs lines).2 = fs := by
  unfold read_transcript
  cases fs with
  | none => rfl
  | some c =>
    cases lines with
    | none => rfl
    | some n =>
      by_cases h : n = 0 <;> simp [h]

/-- Claim C7: every transcript-consuming operation of the controller —
`read_transcript`, `check_for_errors`, `find_test_results`,
`find_pulse_times` and `analyze_simulation` — leaves the transcript file
state unchanged: the transcript is read-only from this codebase's
perspective. -/
theorem transcript_ops_read_only (fs : Option PyStr) (lines : Option Int)
    (t : Option PyStr) (signal : PyStr) (recent : Bool) :
    (read_transcript fs lines).2 = fs ∧
    (check_for_errors_fs fs t).2 = fs ∧
    (find_test_results_fs fs t).2 = fs ∧
    (find_pulse_times_fs fs signal t).2 = fs ∧
    (analyze_simulation_fs fs recent).2 = fs := by
  refine ⟨read_transcript_snd fs lines, ?_, ?_, ?_, ?_⟩
  · unfold check_for_errors_fs
    cases t with
    | none => simpa using read_transcript_snd fs none
    | some c => rfl
  · unfold find_test_results_fs
    cases t with
    | none => simpa using read_transcript_snd fs none
    | some c => rfl
  · unfold find_pulse_times_fs
    cases t with
    | none => simpa using read_transcript_snd fs none
    | some c => rfl
  · unfold analyze_simulation_fs
    cases recent with
    | false => simpa using read_transcript_snd fs none
    | true => simpa using read_transcript_snd fs (some 100)

/-- Claim C8: a missing or unreadable transcript makes `read_transcript`
return the empty string (without raising), and `lines=0` is treated like
`None`: the whole content is returned rather than zero lines. -/
theorem read_transcript_missing_and_zero_lines (lines : Option Int) (c : PyStr) :
    (read_transcript none lines).1 = [] ∧
    (read_transcript (some c) (some 0)).1 = c ∧
    (read_transcript (some c) none).1 = c := by
  refine ⟨rfl, ?_, rfl⟩
  simp [read_transcript]

/-! ## Claim C1: the error-pattern parser -/

/-- A vendor error string of the documented shape
`** Error: (CODE) file(line): message`. -/
def vendorErrorLine (code file ln msg : PyStr) : PyStr :=
  "** Error: (".data ++ (code ++ (") ".data ++ (file ++
    ("(".data ++ (ln ++ ("): ".data ++ msg))))))

theorem findErrMatch_of_startsWith {s : PyStr}
    (h : startsWith ("** Error:".data) s = true) : findErrMatch s = some s := by
  cases s with
  | nil => exact absurd h (by decide)
  | cons c rest => simp [findErrMatch, h]

theorem findErrMatch_eq_none {s : PyStr}
    (h1 : containsSub ("** Error:".data) s = false)
    (h2 : containsSub ("ERROR:".data) s = false) : findErrMatch s = none := by
  induction s with
  | nil => rfl
  | cons c rest ih =>
    obtain ⟨hs1, hr1⟩ := containsSub_cons_eq_false h1
    obtain ⟨hs2, hr2⟩ := containsSub_cons_eq_false h2
    simp [findErrMatch, hs1, hs2, ih hr1 hr2]

theorem vendorErrorLine_ne_nil (code file ln msg : PyStr) :
    vendorErrorLine code file ln msg ≠ [] := by
  simp [vendorErrorLine]

theorem newline_not_mem_vendorErrorLine {code file ln msg : PyStr}
    (hc : '\n' ∉ code) (hf : '\n' ∉ file) (hl : '\n' ∉ ln) (hm : '\n' ∉ msg) :
    '\n' ∉ vendorErrorLine code file ln msg := by
  unfold vendorErrorLine
  simp only [List.mem_append]
  rintro (h | h | h | h | h | h | h | h) <;>
    first
      | exact hc h
      | exact hf h
      | exact hl h
      | exact hm h
      | (revert h; decide)

theorem startsWith_vendorErrorLine (code file ln msg : PyStr) :
    startsWith ("** Error:".data) (vendorErrorLine code file ln msg) = true := by
  have : vendorErrorLine code file ln msg =
      "** Error:".data ++ (" (".data ++ (code ++ (") ".data ++ (file ++
        ("(".data ++ (ln ++ ("): ".data ++ msg))))))) := by
    simp [vendorErrorLine]
  rw [this]
  exact startsWith_append _ _

theorem isErrorLine_vendorErrorLine (code file ln msg : PyStr) :
    isErrorLine (vendorErrorLine code file ln msg) = true := by
  have h : pyLower (vendorErrorLine code file ln msg) =
      "** error".data ++ (": (".data ++ (pyLower code ++ (pyLower (") ".data) ++
        (pyLower file ++ (pyLower ("(".data) ++ (pyLower ln ++
          (pyLower ("): ".data) ++ pyLower msg))))))) := by
    simp [vendorErrorLine, pyLower, List.map_append]
  unfold isErrorLine
  rw [h, ← List.append_assoc]
  have hs : startsWith ("** error".data)
      (("** error".data ++ ": (".data) ++ (pyLower code ++ (pyLower (") ".data) ++
        (pyLower file ++ (pyLower ("(".data) ++ (pyLower ln ++
          (pyLower ("): ".data) ++ pyLower msg))))))) = true := by
    rw [List.append_assoc]
    exact startsWith_append _ _
  rw [containsSub_of_startsWith hs]
  simp

/-- Counterexample to claim C1 as stated: on the vendor error string
`** Error: (vlog-2110) counter.v(15): Syntax error.` both cited parsers
record the entire line as a single error string — neither the code
`vlog-2110` nor the message `Syntax error.` appears as a separate field —
and on unrecognized text both return a result with empty error lists and
no "Command failed" summary of any kind. -/
theorem error_parser_fields_counterexample :
    (parse_log_content ("** Error: (vlog-2110) counter.v(15): Syntax error.".data)).errors
      = ["** Error: (vlog-2110) counter.v(15): Syntax error.".data] ∧
    "vlog-2110".data ∉
      (parse_log_content ("** Error: (vlog-2110) counter.v(15): Syntax error.".data)).errors ∧
    "Syntax error.".data ∉
      (parse_log_content ("** Error: (vlog-2110) counter.v(15): Syntax error.".data)).errors ∧
    (check_for_errors ("** Error: (vlog-2110) counter.v(15): Syntax error.".data)).errors
      = ["** Error: (vlog-2110) counter.v(15): Syntax error.".data] ∧
    (parse_log_content ("Loading work.counter_tb".data)).errors = [] ∧
    (parse_log_content ("Loading work.counter_tb".data)).success = false ∧
    check_for_errors ("Loading work.counter_tb".data)
      = { has_errors := false, has_warnings := false, error_count := 0,
          warning_count := 0, errors := [], warnings := [] } := by
  refine ⟨?_, ?_, ?_, ?_, ?_, ?_, ?_⟩ <;> decide

/-- Claim C1 as amended: for every vendor error string of the form
`** Error: (CODE) file(line): message` (components newline-free), the
parsers capture the full matching line as one error string — `CODE`,
`file`, `line` and `message` embedded in it, not separated — and for text
containing no recognized error marker they return a result with empty
errors (`has_errors` false) without raising; no "Command failed" summary
exists in either parser. -/
theorem error_parser_amended :
    (∀ code file ln msg : PyStr, '\n' ∉ code → '\n' ∉ file → '\n' ∉ ln → '\n' ∉ msg →
      (parse_log_content (vendorErrorLine code file ln msg)).errors
          = [vendorErrorLine code file ln msg] ∧
      (check_for_errors (vendorErrorLine code file ln msg)).errors
          = [pyStrip (vendorErrorLine code file ln msg)]) ∧
    (∀ t : PyStr,
      (∀ line ∈ pySplitlines t, isErrorLine line = false ∧
        containsSub ("** Error:".data) line = false ∧
        containsSub ("ERROR:".data) line = false) →
      (parse_log_content t).errors = [] ∧ (check_for_errors t).has_errors = false) := by
  constructor
  · intro code file ln msg hc hf hl hm
    have hone : pySplitlines (vendorErrorLine code file ln msg)
        = [vendorErrorLine code file ln msg] :=
      pySplitlines_no_newline (vendorErrorLine_ne_nil code file ln msg)
        (newline_not_mem_vendorErrorLine hc hf hl hm)
    constructor
    · unfold parse_log_content
      rw [hone]
      simp [findErrMatch_of_startsWith (startsWith_vendorErrorLine code file ln msg)]
    · unfold check_for_errors
      rw [classifyLine_foldl, hone]
      simp [isErrorLine_vendorErrorLine]
  · intro t h
    constructor
    · unfold parse_log_content
      simp only []
      rw [List.filterMap_eq_nil_iff]
      intro line hline
      exact findErrMatch_eq_none (h line hline).2.1 (h line hline).2.2
    · unfold check_for_errors
      rw [classifyLine_foldl]
      have : (pySplitlines t).filter isErrorLine = [] := by
        rw [List.filter_eq_nil_iff]
        intro line hline
        simp [(h line hline).1]
      simp [this]

/-- Concrete instantiation of the amended claim C1. -/
theorem error_parser_amended_witness :
    ((parse_log_content (vendorErrorLine ("vlog-2110".data) ("counter.v".data)
        ("15".data) ("Syntax error.".data))).errors
      = [vendorErrorLine ("vlog-2110".data) ("counter.v".data) ("15".data)
          ("Syntax error.".data)] ∧
     (check_for_errors (vendorErrorLine ("vlog-2110".data) ("counter.v".data)
        ("15".data) ("Syntax error.".data))).errors
      = [pyStrip (vendorErrorLine ("vlog-2110".data) ("counter.v".data) ("15".data)
          ("Syntax error.".data))]) ∧
    ((parse_log_content ("run 1us".data)).errors = [] ∧
     (check_for_errors ("run 1us".data)).has_errors = false) :=
  ⟨error_parser_amended.1 ("vlog-2110".data) ("counter.v".data) ("15".data)
      ("Syntax error.".data) (by decide) (by decide) (by decide) (by decide),
   error_parser_amended.2 ("run 1us".data) (by decide)⟩

/-! ## Claims C5 and C9: path normalization -/

/-- Claim C5: `ModelSimController.recompile` normalizes every file path —
an absolute path under the project root becomes `../` plus the
project-relative path with backslashes turned into forward slashes; an
absolute path outside the project root (root not a component prefix, or a
relative root) keeps its absolute form with backslashes turned into
forward slashes; a relative path becomes `../` plus its forward-slash
form. -/
theorem recompile_normalizes_paths (root f : PyPath) :
    (f.absolute = true → root.absolute = true → root.parts.isPrefixOf f.parts = true →
      normalize_controller root f
        = "../" ++ replaceBS (pathStr ⟨false, f.parts.drop root.parts.length⟩)) ∧
    (f.absolute = true → root.absolute = true → root.parts.isPrefixOf f.parts = false →
      normalize_controller root f = replaceBS (pathStr f)) ∧
    (f.absolute = true → root.absolute = false →
      normalize_controller root f = replaceBS (pathStr f)) ∧
    (f.absolute = false → normalize_controller root f = "../" ++ replaceBS (pathStr f)) := by
  refine ⟨?_, ?_, ?_, ?_⟩
  · intro h1 h2 h3
    simp [normalize_controller, relative_to, h1, h2, h3]
  · intro h1 h2 h3
    simp [normalize_controller, relative_to, h1, h2, h3]
  · intro h1 h2
    simp [normalize_controller, relative_to, h1, h2]
  · intro h1
    simp [normalize_controller, h1]

/-- Concrete instantiation of claim C5 (absolute path under the project
root). -/
theorem recompile_normalizes_paths_witness :
    normalize_controller ⟨true, ["d:", "proj"]⟩ ⟨true, ["d:", "proj", "hdl", "counter.v"]⟩
      = "../" ++ replaceBS (pathStr ⟨false,
          (["d:", "proj", "hdl", "counter.v"] : List String).drop
            (["d:", "proj"] : List String).length⟩) :=
  (recompile_normalizes_paths ⟨true, ["d:", "proj"]⟩
    ⟨true, ["d:", "proj", "hdl", "counter.v"]⟩).1 rfl rfl (by decide)

/-- Claim C9: the path-normalization logic duplicated in
`ModelSimController.recompile` and `ModelSimGUIRunner.create_gui_tcl_script`
is equivalent — for every project root, design-file list and testbench
path, the two produce identical normalized path strings. -/
theorem gui_controller_normalization_equiv (root : PyPath) (files : List PyPath)
    (tb : PyPath) :
    files.map (normalize_gui root) = files.map (normalize_controller root) ∧
    normalize_tb_gui root tb = normalize_tb_controller root (some tb) :=
  ⟨rfl, rfl⟩

/-! ## Claim C2: connection retry -/

theorem client_connect_aux_all_fail {δ : Type} (oracle : Nat → Bool) (d : δ) :
    ∀ (n k : Nat), (∀ j, k ≤ j → j < k + n → oracle j = false) →
      (client_connect_aux oracle d k n).2 = false ∧
      countAttempts (client_connect_aux oracle d k n).1 = n ∧
      waitEvents (client_connect_aux oracle d k n).1
        = List.replicate (n - 1) (ConnEvent.waitDelay d) := by
  intro n
  induction n with
  | zero => exact fun k h => ⟨rfl, rfl, rfl⟩
  | succ m ih =>
    intro k h
    have hk : oracle k = false := h k le_rfl (by omega)
    cases m with
    | zero => simp [client_connect_aux, hk, countAttempts, waitEvents]
    | succ p =>
      have ihk := ih (k + 1) (fun j h1 h2 => h j (by omega) (by omega))
      have e : client_connect_aux oracle d k (p + 1 + 1)
          = (ConnEvent.attempt k :: ConnEvent.waitDelay d ::
               (client_connect_aux oracle d (k + 1) (p + 1)).1,
             (client_connect_aux oracle d (k + 1) (p + 1)).2) := by
        simp only [client_connect_aux]
        simp [hk]
      rw [e]
      simp [countAttempts, waitEvents, ihk.1, ihk.2.1, ihk.2.2, List.replicate_succ]

/-- Claim C2: when no attempt succeeds and no connection already exists,
the connect operation reached through `ModelSimController.connect` makes
exactly `max_retries` numbered attempts with the configured delay slept
between consecutive attempts (`max_retries - 1` sleeps), and reports
failure by returning `False` — never more and never fewer attempts than
configured. -/
theorem connect_retries_exactly {δ : Type} (oracle : Nat → Bool) (d : δ) (n : Nat)
    (h : ∀ j, 1 ≤ j → j ≤ n → oracle j = false) :
    (controller_connect false oracle d n).2 = false ∧
    countAttempts (controller_connect false oracle d n).1 = n ∧
    waitEvents (controller_connect false oracle d n).1
      = List.replicate (n - 1) (ConnEvent.waitDelay d) := by
  have := client_connect_aux_all_fail oracle d n 1 (fun j h1 h2 => h j h1 (by omega))
  simpa [controller_connect, client_connect] using this

/-- Concrete instantiation of claim C2: three failing attempts, two
sleeps, failure reported. -/
theorem connect_retries_exactly_witness :
    (controller_connect false (fun _ => false) (1 : Nat) 3).2 = false ∧
    countAttempts (controller_connect false (fun _ => false) (1 : Nat) 3).1 = 3 ∧
    waitEvents (controller_connect false (fun _ => false) (1 : Nat) 3).1
      = List.replicate 2 (ConnEvent.waitDelay 1) :=
  connect_retries_exactly (fun _ => false) 1 3 (fun _ _ _ => rfl)

/-! ## Claims C3 and C10: the quick workflow -/

/-- Claim C3: a failed response never crashes the workflow; the workflow
returns `success := false` and stores the failing step's response
dictionary verbatim (message and errors fields unmodified) in its result.
Totality of the embedding reflects that the Python path raises no
exception: `dict.get` and dictionary stores cannot throw. -/
theorem quick_surfaces_failure_verbatim (restart_flag refresh_flag : Bool)
    (zr : Option (String × String)) (client : ClientResponses) :
    (client.recompile.success = false →
      (quick_recompile_and_run true true restart_flag refresh_flag zr client).1.success
          = false ∧
      (quick_recompile_and_run true true restart_flag refresh_flag zr client).1.recompile
          = some client.recompile) ∧
    (client.recompile.success = true → restart_flag = true →
      client.restart.success = false →
      (quick_recompile_and_run true true restart_flag refresh_flag zr client).1.success
          = false ∧
      (quick_recompile_and_run true true restart_flag refresh_flag zr client).1.restart
          = some client.restart) ∧
    (client.recompile.success = true →
      (restart_flag = true → client.restart.success = true) →
      client.run.success = false →
      (quick_recompile_and_run true true restart_flag refresh_flag zr client).1.success
          = false ∧
      (quick_recompile_and_run true true restart_flag refresh_flag zr client).1.run
          = some client.run) := by
  refine ⟨?_, ?_, ?_⟩
  · intro h
    simp [quick_recompile_and_run, h]
  · intro h1 h2 h3
    simp [quick_recompile_and_run, h1, h2, h3]
  · intro h1 h2 h3
    cases hr : restart_flag with
    | false => simp [quick_recompile_and_run, h1, h3, hr]
    | true => simp [quick_recompile_and_run, h1, h2 hr, h3, hr]

/-- A client whose recompile step fails, used to instantiate the workflow
claims. -/
def wClientRecFail : ClientResponses :=
  { recompile := { success := false, message := "Compile error",
                   output := "vlog failed",
                   errors := ["** Error: (vlog-13069) counter.v(10): near )"],
                   warnings := [] }
    restart := { success := true, message := "", output := "", errors := [], warnings := [] }
    run := { success := true, message := "", output := "", errors := [], warnings := [] }
    zoom := { success := true, message := "", output := "", errors := [], warnings := [] }
    refresh_wave := { success := true, message := "", output := "", errors := [],
                      warnings := [] } }

/-- Concrete instantiation of claim C3 at a failing recompile response. -/
theorem quick_surfaces_failure_verbatim_witness :
    (quick_recompile_and_run true true true true none wClientRecFail).1.success = false ∧
    (quick_recompile_and_run true true true true none wClientRecFail).1.recompile
      = some wClientRecFail.recompile :=
  (quick_surfaces_failure_verbatim true true none wClientRecFail).1 rfl

/-- Claim C10: `quick_recompile_and_run` stops at the first failed step —
not connected, failed recompile, failed restart or failed run each yield
`success := false` with the step-specific message, leave every subsequent
step entry at its initial empty dictionary, and invoke no further client
operation. -/
theorem quick_stops_at_first_failure (connected restart_flag refresh_flag : Bool)
    (zr : Option (String × String)) (client : ClientResponses) :
    (connected = false →
      quick_recompile_and_run connected true restart_flag refresh_flag zr client
        = ({ success := false, message := "Not connected to ModelSim server",
             recompile := none, restart := none, run := none, wave_refresh := none },
           [])) ∧
    (client.recompile.success = false →
      quick_recompile_and_run true true restart_flag refresh_flag zr client
        = ({ success := false, message := "Compilation failed",
             recompile := some client.recompile, restart := none, run := none,
             wave_refresh := none },
           [.recompileOp])) ∧
    (client.recompile.success = true → restart_flag = true →
      client.restart.success = false →
      quick_recompile_and_run true true restart_flag refresh_flag zr client
        = ({ success := false, message := "Restart failed",
             recompile := some client.recompile, restart := some client.restart,
             run := none, wave_refresh := none },
           [.recompileOp, .restartOp])) ∧
    (client.recompile.success = true →
      (restart_flag = true → client.restart.success = true) →
      client.run.success = false →
      quick_recompile_and_run true true restart_flag refresh_flag zr client
        = ({ success := false, message := "Simulation run failed",
             recompile := some client.recompile,
             restart := if restart_flag then some client.restart else none,
             run := some client.run, wave_refresh := none },
           (if restart_flag then [ClientOp.recompileOp, .restartOp]
            else [.recompileOp]) ++ [.runOp])) := by
  refine ⟨?_, ?_, ?_, ?_⟩
  · intro h
    simp [quick_recompile_and_run, h]
  · intro h
    simp [quick_recompile_and_run, h]
  · intro h1 h2 h3
    simp [quick_recompile_and_run, h1, h2, h3]
  · intro h1 h2 h3
    cases hr : restart_flag with
    | false => simp [quick_recompile_and_run, h1, h3, hr]
    | true => simp [quick_recompile_and_run, h1, h2 hr, h3, hr]

/-- Concrete instantiation of claim C10 at a failing recompile response. -/
theorem quick_stops_at_first_failure_witness :
    quick_recompile_and_run true true true true none wClientRecFail
      = ({ success := false, message := "Compilation failed",
           recompile := some wClientRecFail.recompile, restart := none, run := none,
           wave_refresh := none },
         [.recompileOp]) :=
  (quick_stops_at_first_failure true true true none wClientRecFail).2.1 rfl

/-! ## Claim C4: envelope JSON roundtrip -/

@[simp] theorem strMk_data (s : String) : String.mk s.data = s := rfl

theorem hexVal_hexDigitCh : ∀ n, n < 16 → hexVal (hexDigitCh n) = some n := by decide

theorem hexDigitCh_ne_nl : ∀ n, n < 16 → hexDigitCh n ≠ '\n' := by decide

theorem newline_not_mem_escChar (c : Char) : '\n' ∉ escChar c := by
  unfold escChar
  split_ifs with h1 h2 h3
  · decide
  · decide
  · intro hm
    simp only [List.mem_cons, List.not_mem_nil, or_false] at hm
    rcases hm with h | h | h | h | h | h
    · exact absurd h (by decide)
    · exact absurd h (by decide)
    · exact absurd h (by decide)
    · exact absurd h (by decide)
    · exact hexDigitCh_ne_nl (c.toNat / 16) (by omega) h.symm
    · exact hexDigitCh_ne_nl (c.toNat % 16) (by omega) h.symm
  · intro hm
    simp only [List.mem_singleton] at hm
    exact h3 (hm ▸ (by decide : '\n'.toNat < 32))

theorem newline_not_mem_encStrCh (s : List Char) : '\n' ∉ encStrCh s := by
  unfold encStrCh
  intro hm
  simp only [List.mem_cons, List.mem_append, List.mem_flatMap,
    List.mem_singleton] at hm
  rcases hm with h | ⟨a, _, ha⟩ | h
  · exact absurd h (by decide)
  · exact newline_not_mem_escChar a ha
  · exact absurd h (by decide)

theorem newline_not_mem_sepComma {l : List (List Char)}
    (h : ∀ x ∈ l, '\n' ∉ x) : '\n' ∉ sepComma l := by
  induction l with
  | nil => simp [sepComma]
  | cons x xs ih =>
    cases xs with
    | nil => simpa [sepComma] using h x (List.mem_cons_self _ _)
    | cons y ys =>
      intro hm
      rw [sepComma] at hm
      simp only [List.mem_append, List.mem_cons] at hm
      rcases hm with h1 | h2 | h3
      · exact h x (List.mem_cons_self _ _) h1
      · exact absurd h2 (by decide)
      · exact ih (fun z hz => h z (List.mem_cons_of_mem _ hz)) h3

theorem newline_not_mem_encVal (v : JVal) : '\n' ∉ encVal v := by
  cases v with
  | str s => exact newline_not_mem_encStrCh s.data
  | arr l =>
    intro hm
    simp only [encVal, List.mem_cons, List.mem_append, List.mem_singleton] at hm
    rcases hm with h | h | h
    · exact absurd h (by decide)
    · refine newline_not_mem_sepComma ?_ h
      intro x hx
      simp only [List.mem_map] at hx
      obtain ⟨s, _, rfl⟩ := hx
      exact newline_not_mem_encStrCh s.data
    · exact absurd h (by decide)

theorem newline_not_mem_encMember (m : String × JVal) : '\n' ∉ encMember m := by
  intro hm
  simp only [encMember, List.mem_append, List.mem_cons] at hm
  rcases hm with h | h | h
  · exact newline_not_mem_encStrCh m.1.data h
  · exact absurd h (by decide)
  · exact newline_not_mem_encVal m.2 h

theorem newline_not_mem_encParams (ps : List (String × JVal)) :
    '\n' ∉ encParams ps := by
  intro hm
  simp only [encParams, List.mem_cons, List.mem_append, List.mem_singleton] at hm
  rcases hm with h | h | h
  · exact absurd h (by decide)
  · refine newline_not_mem_sepComma ?_ h
    intro x hx
    simp only [List.mem_map] at hx
    obtain ⟨m, _, rfl⟩ := hx
    exact newline_not_mem_encMember m
  · exact absurd h (by decide)

theorem newline_not_mem_encodeEnvelope (e : Envelope) :
    '\n' ∉ encodeEnvelope e := by
  intro hm
  simp only [encodeEnvelope, List.mem_cons, List.mem_append,
    List.mem_singleton] at hm
  rcases hm with h | h | h | h | h | h | h | h
  · exact absurd h (by decide)
  · exact newline_not_mem_encStrCh _ h
  · exact absurd h (by decide)
  · exact newline_not_mem_encStrCh _ h
  · exact absurd h (by decide)
  · exact newline_not_mem_encStrCh _ h
  · exact absurd h (by decide)
  · rcases h with h | h
    · exact newline_not_mem_encParams _ h
    · exact absurd h (by decide)

theorem escChar_quote : escChar '"' = ['\x5c', '"'] := rfl

theorem escChar_bs : escChar '\x5c' = ['\x5c', '\x5c'] := rfl

theorem escChar_ctrl {c : Char} (h1 : c ≠ '"') (h2 : c ≠ '\x5c') (h3 : c.toNat < 32) :
    escChar c = ['\x5c', 'u', '0', '0', hexDigitCh (c.toNat / 16), hexDigitCh (c.toNat % 16)] := by
  unfold escChar
  rw [if_neg h1, if_neg h2, if_pos h3]

theorem escChar_plain {c : Char} (h1 : c ≠ '"') (h2 : c ≠ '\x5c')
    (h3 : ¬ c.toNat < 32) : escChar c = [c] := by
  unfold escChar
  rw [if_neg h1, if_neg h2, if_neg h3]

theorem decStrAux_quote (l : List Char) : decStrAux ('"' :: l) = some ([], l) := by
  simp [decStrAux.eq_def]

theorem decStrAux_esc_quote (l : List Char) :
    decStrAux ('\x5c' :: '"' :: l) = (decStrAux l).map fun p => ('"' :: p.1, p.2) := by
  conv_lhs => rw [decStrAux.eq_def]
  simp

theorem decStrAux_esc_bs (l : List Char) :
    decStrAux ('\x5c' :: '\x5c' :: l)
      = (decStrAux l).map fun p => ('\x5c' :: p.1, p.2) := by
  conv_lhs => rw [decStrAux.eq_def]
  simp

theorem decStrAux_esc_u {h1 h2 h3 h4 : Char} {a b c2 d : Nat}
    (e1 : hexVal h1 = some a) (e2 : hexVal h2 = some b)
    (e3 : hexVal h3 = some c2) (e4 : hexVal h4 = some d) (l : List Char) :
    decStrAux ('\x5c' :: 'u' :: h1 :: h2 :: h3 :: h4 :: l)
      = (decStrAux l).map fun p =>
          (Char.ofNat (((a * 16 + b) * 16 + c2) * 16 + d) :: p.1, p.2) := by
  conv_lhs => rw [decStrAux.eq_def]
  simp only [reduceIte, Char.reduceEq]
  rw [e1, e2, e3, e4]

theorem decStrAux_plain {c : Char} (hq : c ≠ '"') (hb : c ≠ '\x5c') (l : List Char) :
    decStrAux (c :: l) = (decStrAux l).map fun p => (c :: p.1, p.2) := by
  conv_lhs => rw [decStrAux.eq_def]
  simp [hq, hb]

theorem decStrAux_escape (s : List Char) (rest : List Char) :
    decStrAux (s.flatMap escChar ++ ('"' :: rest)) = some (s, rest) := by
  induction s with
  | nil => exact decStrAux_quote rest
  | cons c cs ih =>
    rw [List.flatMap_cons, List.append_assoc]
    by_cases h1 : c = '"'
    · subst h1
      rw [escChar_quote]
      simp only [List.cons_append, List.nil_append]
      rw [decStrAux_esc_quote, ih]
      rfl
    · by_cases h2 : c = '\x5c'
      · subst h2
        rw [escChar_bs]
        simp only [List.cons_append, List.nil_append]
        rw [decStrAux_esc_bs, ih]
        rfl
      · by_cases h3 : c.toNat < 32
        · rw [escChar_ctrl h1 h2 h3]
          simp only [List.cons_append, List.nil_append]
          rw [decStrAux_esc_u (show hexVal '0' = some 0 by decide)
              (show hexVal '0' = some 0 by decide)
              (hexVal_hexDigitCh (c.toNat / 16) (by omega))
              (hexVal_hexDigitCh (c.toNat % 16) (by omega)), ih]
          simp only [Option.map_some']
          have hv : ((0 * 16 + 0) * 16 + c.toNat / 16) * 16 + c.toNat % 16 = c.toNat := by
            omega
          rw [hv, Char.ofNat_toNat]
        · rw [escChar_plain h1 h2 h3]
          simp only [List.cons_append, List.nil_append]
          rw [decStrAux_plain h1 h2, ih]
          rfl

theorem decString_enc (s rest : List Char) :
    decString (encStrCh s ++ rest) = some (s, rest) := by
  unfold encStrCh
  simp only [List.cons_append, List.append_assoc, List.singleton_append]
  rw [decString]
  exact decStrAux_escape s rest

theorem decString_quote (t : List Char) : decString ('"' :: t) = decStrAux t := by
  simp [decString]

theorem decVal_str (fuel : Nat) (t : List Char) :
    decVal fuel ('"' :: t)
      = (decString ('"' :: t)).map fun p => (JVal.str (String.mk p.1), p.2) := by
  simp [decVal]

theorem decVal_arr_nil (fuel : Nat) (rest : List Char) :
    decVal fuel ('[' :: ']' :: rest) = some (.arr [], rest) := by
  simp [decVal]

theorem decVal_arr (fuel : Nat) {c : Char} (t : List Char) (h : c ≠ ']') :
    decVal fuel ('[' :: c :: t)
      = (decArrItems fuel (c :: t)).map fun p => (JVal.arr p.1, p.2) := by
  simp [decVal, h]

theorem decParams_nil (fuel : Nat) (rest : List Char) :
    decParams fuel ('\x7b' :: '\x7d' :: rest) = some ([], rest) := by
  simp [decParams]

theorem decParams_cons (fuel : Nat) {c : Char} (t : List Char) (h : c ≠ '\x7d') :
    decParams fuel ('\x7b' :: c :: t) = decMembers fuel (c :: t) := by
  simp [decParams, h]

theorem expectChar_pos (c : Char) (t : List Char) : expectChar c (c :: t) = some t := by
  simp [expectChar]

theorem decArrItems_enc :
    ∀ (xs : List String) (x : String) (fuel : Nat) (rest : List Char),
    xs.length < fuel →
    decArrItems fuel (sepComma ((x :: xs).map fun s => encStrCh s.data) ++ (']' :: rest))
      = some (x :: xs, rest) := by
  intro xs
  induction xs with
  | nil =>
    intro x fuel rest hf
    cases fuel with
    | zero => omega
    | succ f =>
      simp only [List.map_cons, List.map_nil, sepComma]
      simp only [decArrItems, decString_enc]
  | cons y ys ih =>
    intro x fuel rest hf
    cases fuel with
    | zero => omega
    | succ f =>
      simp only [List.map_cons, sepComma, List.append_assoc, List.cons_append]
      simp only [decArrItems, decString_enc]
      rw [show encStrCh y.data :: List.map (fun s => encStrCh s.data) ys
            = List.map (fun s => encStrCh s.data) (y :: ys) from rfl]
      rw [ih y f rest (by simp at hf; omega)]
      simp

/-- Fuel needed to decode one parameter value. -/
def valFuel : JVal → Nat
  | .str _ => 0
  | .arr l => l.length

/-- Fuel needed to decode a parameters object. -/
def envFuel : List (String × JVal) → Nat
  | [] => 0
  | m :: ps => max (valFuel m.2) (envFuel ps) + 1

theorem sepComma_encStr_shape (x : String) (xs : List String) :
    ∃ t, sepComma ((x :: xs).map fun s => encStrCh s.data) = '"' :: t := by
  cases xs with
  | nil =>
    refine ⟨x.data.flatMap escChar ++ ['"'], ?_⟩
    simp [sepComma, encStrCh]
  | cons y ys =>
    refine ⟨(x.data.flatMap escChar ++ ['"']) ++
      (',' :: sepComma (encStrCh y.data :: ys.map fun s => encStrCh s.data)), ?_⟩
    simp [sepComma, encStrCh]

theorem decVal_enc (v : JVal) (fuel : Nat) (rest : List Char)
    (hf : valFuel v ≤ fuel) :
    decVal fuel (encVal v ++ rest) = some (v, rest) := by
  cases v with
  | str s =>
    have h : encVal (JVal.str s) ++ rest
        = '"' :: (s.data.flatMap escChar ++ ('"' :: rest)) := by
      simp [encVal, encStrCh]
    rw [h, decVal_str, decString_quote, decStrAux_escape]
    rfl
  | arr l =>
    cases l with
    | nil =>
      have h : encVal (JVal.arr []) ++ rest = '[' :: ']' :: rest := by
        simp [encVal, sepComma]
      rw [h, decVal_arr_nil]
    | cons x xs =>
      obtain ⟨t, ht⟩ := sepComma_encStr_shape x xs
      have h : encVal (JVal.arr (x :: xs)) ++ rest
          = '[' :: ('"' :: (t ++ (']' :: rest))) := by
        show ('[' :: (sepComma ((x :: xs).map fun s => encStrCh s.data) ++ [']'])) ++ rest
          = '[' :: ('"' :: (t ++ (']' :: rest)))
        rw [ht]
        simp
      rw [h, decVal_arr fuel _ (by decide)]
      have h2 : ('"' :: (t ++ (']' :: rest)))
          = sepComma ((x :: xs).map fun s => encStrCh s.data) ++ (']' :: rest) := by
        rw [ht, List.cons_append]
      rw [h2, decArrItems_enc xs x fuel rest (by simpa [valFuel] using hf)]
      rfl

theorem decMembers_enc :
    ∀ (ps : List (String × JVal)) (m : String × JVal) (fuel : Nat) (rest : List Char),
    envFuel (m :: ps) ≤ fuel →
    decMembers fuel (sepComma ((m :: ps).map encMember) ++ ('\x7d' :: rest))
      = some (m :: ps, rest) := by
  intro ps
  induction ps with
  | nil =>
    intro m fuel rest hf
    obtain ⟨k, v⟩ := m
    cases fuel with
    | zero => simp [envFuel] at hf
    | succ f =>
      have hv : valFuel v ≤ f := by
        simp [envFuel] at hf
        omega
      simp only [List.map_cons, List.map_nil, sepComma]
      rw [show encMember (k, v) = encStrCh k.data ++ (':' :: encVal v) from rfl]
      simp only [List.append_assoc, List.cons_append]
      simp only [decMembers, decString_enc]
      rw [decVal_enc v f _ hv]
      simp
  | cons m2 ps ih =>
    intro m fuel rest hf
    obtain ⟨k, v⟩ := m
    cases fuel with
    | zero => simp [envFuel] at hf
    | succ f =>
      have hv : valFuel v ≤ f := by
        simp [envFuel] at hf
        omega
      have hps : envFuel (m2 :: ps) ≤ f := by
        simp only [envFuel] at hf ⊢
        omega
      simp only [List.map_cons, sepComma]
      rw [show encMember (k, v) = encStrCh k.data ++ (':' :: encVal v) from rfl]
      simp only [List.append_assoc, List.cons_append]
      simp only [decMembers, decString_enc]
      rw [decVal_enc v f _ hv]
      rw [show encMember m2 :: List.map encMember ps = List.map encMember (m2 :: ps)
            from rfl]
      show Option.map (fun p => ((String.mk k.data, v) :: p.1, p.2))
          (decMembers f (sepComma (List.map encMember (m2 :: ps)) ++ ('\x7d' :: rest)))
        = some ((k, v) :: m2 :: ps, rest)
      rw [ih m2 f rest hps]
      simp

theorem sepComma_encMember_shape (m : String × JVal) (ps : List (String × JVal)) :
    ∃ t, sepComma ((m :: ps).map encMember) = '"' :: t := by
  cases ps with
  | nil =>
    refine ⟨(m.1.data.flatMap escChar ++ ['"']) ++ (':' :: encVal m.2), ?_⟩
    simp [sepComma, encMember, encStrCh]
  | cons m2 ps2 =>
    refine ⟨((m.1.data.flatMap escChar ++ ['"']) ++ (':' :: encVal m.2)) ++
      (',' :: sepComma (encMember m2 :: ps2.map encMember)), ?_⟩
    simp [sepComma, encMember, encStrCh]

theorem decParams_enc (ps : List (String × JVal)) (fuel : Nat) (rest : List Char)
    (hf : envFuel ps ≤ fuel) :
    decParams fuel (encParams ps ++ rest) = some (ps, rest) := by
  cases ps with
  | nil =>
    have h : encParams [] ++ rest = '\x7b' :: '\x7d' :: rest := by
      simp [encParams, sepComma]
    rw [h, decParams_nil]
  | cons m ps =>
    obtain ⟨t, ht⟩ := sepComma_encMember_shape m ps
    have h : encParams (m :: ps) ++ rest = '\x7b' :: ('"' :: (t ++ ('\x7d' :: rest))) := by
      show ('\x7b' :: (sepComma ((m :: ps).map encMember) ++ ['\x7d'])) ++ rest
        = '\x7b' :: ('"' :: (t ++ ('\x7d' :: rest)))
      rw [ht]
      simp
    rw [h, decParams_cons fuel _ (by decide)]
    have h2 : ('"' :: (t ++ ('\x7d' :: rest)))
        = sepComma ((m :: ps).map encMember) ++ ('\x7d' :: rest) := by
      rw [ht, List.cons_append]
    rw [h2, decMembers_enc ps m fuel rest hf]

theorem two_le_encStrCh_len (s : List Char) : 2 ≤ (encStrCh s).length := by
  simp [encStrCh]

theorem sepComma_len_items :
    ∀ (l : List (List Char)), (∀ x ∈ l, 1 ≤ x.length) →
    l.length ≤ (sepComma l).length + 1 := by
  intro l
  induction l with
  | nil => simp [sepComma]
  | cons x xs ih =>
    intro h
    cases xs with
    | nil =>
      have h1 := h x (List.mem_cons_self _ _)
      simp only [sepComma, List.length_cons, List.length_nil]
      omega
    | cons y ys =>
      have h1 := h x (List.mem_cons_self _ _)
      have h2 := ih (fun z hz => h z (List.mem_cons_of_mem _ hz))
      simp only [sepComma, List.length_cons, List.length_append] at h2 ⊢
      omega

theorem valFuel_le_encVal_len (v : JVal) : valFuel v ≤ (encVal v).length := by
  cases v with
  | str s => simp [valFuel]
  | arr l =>
    have hitems : ∀ x ∈ (l.map fun s => encStrCh s.data), 1 ≤ x.length := by
      intro x hx
      simp only [List.mem_map] at hx
      obtain ⟨s, _, rfl⟩ := hx
      have := two_le_encStrCh_len s.data
      omega
    have h := sepComma_len_items _ hitems
    simp only [List.length_map] at h
    simp only [valFuel, encVal, List.length_cons, List.length_append,
      List.length_singleton]
    omega

theorem encMember_len (m : String × JVal) : valFuel m.2 + 3 ≤ (encMember m).length := by
  have h1 := two_le_encStrCh_len m.1.data
  have h2 := valFuel_le_encVal_len m.2
  simp only [encMember, List.length_append, List.length_cons]
  omega

theorem envFuel_le_encParams_len : ∀ ps, envFuel ps ≤ (encParams ps).length := by
  intro ps
  induction ps with
  | nil => simp [envFuel, encParams, sepComma]
  | cons m ps ih =>
    cases ps with
    | nil =>
      have h1 := encMember_len m
      simp only [envFuel, encParams, sepComma, List.map_cons, List.map_nil,
        List.length_cons, List.length_append, List.length_singleton]
      omega
    | cons m2 ps2 =>
      have h1 := encMember_len m
      simp only [envFuel, encParams, List.map_cons, sepComma, List.length_cons,
        List.length_append, List.length_singleton] at ih ⊢
      omega

/-- Claim C4: a command envelope encodes to a single line of JSON (the
encoding contains no newline character), and decoding that line yields an
envelope equal to the original — no field is lost or altered in the round
trip. -/
theorem envelope_roundtrips (e : Envelope) :
    '\n' ∉ encodeEnvelope e ∧ decodeEnvelope (encodeEnvelope e) = some e := by
  refine ⟨newline_not_mem_encodeEnvelope e, ?_⟩
  obtain ⟨cmd, ps⟩ := e
  have hfuel : envFuel ps ≤ (encParams ps ++ ['\x7d']).length := by
    have h := envFuel_le_encParams_len ps
    simp only [List.length_append]
    omega
  unfold decodeEnvelope
  rw [show encodeEnvelope ⟨cmd, ps⟩
      = '\x7b' :: (encStrCh ("command".data) ++ (':' :: (encStrCh cmd.data ++
          (',' :: (encStrCh ("params".data) ++ (':' :: (encParams ps ++ ['\x7d'])))))))
    from rfl]
  rw [expectChar_pos]
  simp only [Option.bind_eq_bind, Option.some_bind]
  rw [decString_enc]
  simp only [Option.some_bind, if_true]
  rw [expectChar_pos]
  simp only [Option.some_bind]
  rw [decString_enc]
  simp only [Option.some_bind]
  rw [expectChar_pos]
  simp only [Option.some_bind]
  rw [decString_enc]
  simp only [Option.some_bind, if_true]
  rw [expectChar_pos]
  simp only [Option.some_bind]
  rw [decParams_enc ps ((encParams ps ++ ['\x7d']).length) ['\x7d'] hfuel]
  simp only [Option.some_bind]
  rw [expectChar_pos]
  simp only [Option.some_bind, if_true]

end HDLDev
